import Mathlib

/-!
Verification of the s3gof3r S3 client library (bucket layer)

This file embeds the bucket-level operations of the s3gof3r Go library in
Lean 4: region inference from S3 endpoint domains, URL construction for
path-style and virtual-hosted addressing (including the `versionId` query
parameter handling), object deletion together with its checksum-sidecar
keys, default transfer configurations, credential handling, and request
signing at the header level.

Go strings are modelled as Lean `String` values (so the development covers
all well-formed UTF-8 string contents); Go `int`/`int64` are modelled as
`Int`.  HTTP network effects are not modelled: operations that perform
requests are embedded by the data they would send (the URL they target, or
the list of object keys they would delete).  The fragments of the Go
standard library that the bucket layer uses (`net/url` query extraction,
`path.Clean`, query escaping) are modelled below, faithfully for the
string contents the library manipulates.
-/

set_option linter.unusedVariables false

deriving instance DecidableEq for Except

/-! ## Bytes and UTF-8

Go strings are byte strings, and `net/url`'s query unescaping works on
bytes with no UTF-8 restriction, so unescaped query values are modelled as
`List UInt8`.  Lean characters are converted to their UTF-8 bytes with the
standard encoder. -/

/-- UTF-8 encoding of a single character, as a list of bytes. -/
def utf8Bytes (c : Char) : List UInt8 :=
  let n := c.toNat
  if n < 0x80 then [UInt8.ofNat n]
  else if n < 0x800 then
    [UInt8.ofNat (0xC0 + n / 64), UInt8.ofNat (0x80 + n % 64)]
  else if n < 0x10000 then
    [UInt8.ofNat (0xE0 + n / 4096), UInt8.ofNat (0x80 + (n / 64) % 64),
     UInt8.ofNat (0x80 + n % 64)]
  else
    [UInt8.ofNat (0xF0 + n / 262144), UInt8.ofNat (0x80 + (n / 4096) % 64),
     UInt8.ofNat (0x80 + (n / 64) % 64), UInt8.ofNat (0x80 + n % 64)]

/-- The UTF-8 bytes of a string (the Go byte string it denotes). -/
def stringBytes (s : String) : List UInt8 :=
  s.toList.flatMap utf8Bytes

/-! ## Character-level string helpers -/

/-- Split a character list at the first occurrence of `c`: the part before
it, and `some` tail after it when `c` occurs. -/
def breakAt (c : Char) : List Char → List Char × Option (List Char)
  | [] => ([], none)
  | x :: xs =>
    if x = c then ([], some xs)
    else
      let r := breakAt c xs
      (x :: r.1, r.2)

/-- A hexadecimal digit's value, `none` for other characters. -/
def hexVal (c : Char) : Option Nat :=
  if '0' ≤ c ∧ c ≤ '9' then some (c.toNat - '0'.toNat)
  else if 'a' ≤ c ∧ c ≤ 'f' then some (c.toNat - 'a'.toNat + 10)
  else if 'A' ≤ c ∧ c ≤ 'F' then some (c.toNat - 'A'.toNat + 10)
  else none

/-- Uppercase hexadecimal digit for a value below 16 (as used by Go's
`net/url` escaping). -/
def hexDigitU (n : Nat) : Char :=
  if n < 10 then Char.ofNat ('0'.toNat + n)
  else Char.ofNat ('A'.toNat + n - 10)

/-! ## Go `net/url` model: query escaping and parsing

The observables the library uses are modelled: `url.Parse` down to its
error behavior and the raw query it extracts, `Values.Get` after
`URL.Query()` (query parsing, at byte level), and
`Values.Encode`/`QueryEscape` for the single-parameter values the library
builds. -/

/-- Whether a byte needs no escaping in a query component per Go's
`url.QueryEscape`: ASCII alphanumerics and `-`, `_`, `.`, `~`. -/
def isUnreservedQueryByte (b : UInt8) : Bool :=
  (0x41 ≤ b ∧ b ≤ 0x5A) ∨ (0x61 ≤ b ∧ b ≤ 0x7A) ∨ (0x30 ≤ b ∧ b ≤ 0x39) ∨
    b = 0x2D ∨ b = 0x5F ∨ b = 0x2E ∨ b = 0x7E

/-- Escape one byte for a query component: space becomes `+`, unreserved
bytes stand for themselves, all others become `%XX`. -/
def escQueryByte (b : UInt8) : List Char :=
  if b = 0x20 then ['+']
  else if isUnreservedQueryByte b then [Char.ofNat b.toNat]
  else ['%', hexDigitU (b.toNat / 16), hexDigitU (b.toNat % 16)]

/-- Model of Go's `url.QueryEscape` on a byte string. -/
def queryEscapeBytes (bs : List UInt8) : String :=
  String.mk (bs.flatMap escQueryByte)

/-- Model of Go's `url.QueryEscape`. -/
def queryEscape (s : String) : String :=
  queryEscapeBytes (stringBytes s)

/-- Unescape the characters of a query component into bytes: `+` is a
space, `%XX` is the byte `XX` (failing on malformed escapes), any other
character contributes its UTF-8 bytes. -/
def unescapeBytes : List Char → Option (List UInt8)
  | [] => some []
  | '%' :: a :: b :: rest =>
    match hexVal a, hexVal b with
    | some hi, some lo =>
      (unescapeBytes rest).map (fun bs => UInt8.ofNat (hi * 16 + lo) :: bs)
    | _, _ => none
  | '%' :: _ => none
  | '+' :: rest => (unescapeBytes rest).map (fun bs => 0x20 :: bs)
  | c :: rest => (unescapeBytes rest).map (fun bs => utf8Bytes c ++ bs)

/-- Split a query string into its `&`/`;`-separated segments (Go of the
library's era used both separators). -/
def splitSegs : List Char → List (List Char)
  | [] => [[]]
  | c :: rest =>
    if c = '&' ∨ c = ';' then [] :: splitSegs rest
    else
      match splitSegs rest with
      | [] => [[c]]
      | seg :: segs => (c :: seg) :: segs

/-- Scan query segments for the first pair whose unescaped key bytes are
`key`, returning its unescaped value bytes; pairs with malformed escapes
are skipped, as in Go's `url.ParseQuery`, and no UTF-8 restriction is
imposed on the bytes. -/
def queryGetGo (key : List UInt8) : List (List Char) → List UInt8
  | [] => []
  | seg :: rest =>
    if seg.isEmpty then queryGetGo key rest
    else
      let kv := breakAt '=' seg
      match unescapeBytes kv.1, unescapeBytes (kv.2.getD []) with
      | some k, some v => if k = key then v else queryGetGo key rest
      | _, _ => queryGetGo key rest

/-- Model of `url.Values.Get key` applied to `url.URL.Query()` of a raw
query string: the byte string of the first value bound to `key`, empty
when the key is absent (Go returns `""` then). -/
def queryGet (rawQuery : String) (key : String) : List UInt8 :=
  queryGetGo (stringBytes key) (splitSegs rawQuery.toList)

/-- Every `%` is followed by two hexadecimal digits; Go's `unescape`
errors otherwise (its only check in the path, fragment and userinfo
modes). -/
def validEscapes : List Char → Bool
  | '%' :: a :: b :: rest =>
    (hexVal a).isSome ∧ (hexVal b).isSome ∧ validEscapes rest
  | '%' :: _ => false
  | _ :: rest => validEscapes rest
  | [] => true

/-! ### `url.Parse` proper

The library hands `url.Parse` a raw object path and reads back only the
error and `URL.Query()` (i.e. the raw query), so the model reproduces
`Parse`'s error behavior in full — control bytes, scheme detection with
its missing-scheme error, the colon-in-first-segment rejection for
relative paths, authority (userinfo, host, port, zone) validation, and
percent-escape validation of path and fragment — and returns the raw
query it extracts. -/

/-- Go `getScheme`: split a leading `scheme:` off a URL.  An alphabetic
first character starts a scheme candidate; digits and `+`/`-`/`.` may
continue it; a colon ends it (a colon first is the missing-scheme error);
any other character means the URL has no scheme. -/
def getSchemeAux (orig : List Char) :
    List Char → List Char → Bool → Except String (List Char × List Char)
  | [], _, _ => Except.ok ([], orig)
  | c :: rest, acc, first =>
    if c.isAlpha then getSchemeAux orig rest (c :: acc) false
    else if c.isDigit ∨ c = '+' ∨ c = '-' ∨ c = '.' then
      if first then Except.ok ([], orig)
      else getSchemeAux orig rest (c :: acc) false
    else if c = ':' then
      if first then Except.error "missing protocol scheme"
      else Except.ok (acc.reverse, rest)
    else Except.ok ([], orig)

def getScheme (l : List Char) : Except String (List Char × List Char) :=
  getSchemeAux l l [] true

/-- Go `validOptionalPort`: empty, or a colon followed by digits only. -/
def validOptionalPort : List Char → Bool
  | [] => true
  | ':' :: rest => rest.all (fun c => '0' ≤ c ∧ c ≤ '9')
  | _ => false

/-- Go `shouldEscape` for the host mode: alphanumerics, the sub-delims
(with `:`, `[`, `]`, `<`, `>` and the double quote), and `-`, `_`, `.`,
`~` stay unescaped; every other ASCII character must be escaped. -/
def shouldEscapeHost (c : Char) : Bool :=
  if ('a' ≤ c ∧ c ≤ 'z') ∨ ('A' ≤ c ∧ c ≤ 'Z') ∨ ('0' ≤ c ∧ c ≤ '9') then
    false
  else
    let n := c.toNat
    if n = 33 ∨ n = 36 ∨ n = 38 ∨ n = 39 ∨ n = 40 ∨ n = 41 ∨ n = 42 ∨
        n = 43 ∨ n = 44 ∨ n = 59 ∨ n = 61 ∨ n = 58 ∨ n = 91 ∨ n = 93 ∨
        n = 60 ∨ n = 62 ∨ n = 34 then
      false
    else if n = 45 ∨ n = 95 ∨ n = 46 ∨ n = 126 then false
    else true

/-- `shouldEscape` in host mode on a raw byte: bytes at or above `0x80`
never match the ASCII allowances, so they must be escaped. -/
def shouldEscapeHostByte (v : Nat) : Bool :=
  if v < 0x80 then shouldEscapeHost (Char.ofNat v) else true

/-- Go `unescape` in the host mode, error behavior only: malformed
escapes fail; `%XX` of an ASCII byte other than `%25` fails (hosts cannot
percent-encode ASCII); a raw ASCII character that host escaping would
escape fails. -/
def unescapeHost : List Char → Except String Unit
  | '%' :: a :: b :: rest =>
    match hexVal a, hexVal b with
    | some hi, some _ =>
      if hi < 8 ∧ ¬(a = '2' ∧ b = '5') then Except.error "invalid URL escape"
      else unescapeHost rest
    | _, _ => Except.error "invalid URL escape"
  | '%' :: _ => Except.error "invalid URL escape"
  | c :: rest =>
    if c.toNat < 0x80 ∧ shouldEscapeHost c then
      Except.error "invalid character in host name"
    else unescapeHost rest
  | [] => Except.ok ()

/-- Go `unescape` in the zone mode (IPv6 zone identifiers), error
behavior only: malformed escapes fail, and an escape other than `%25` or
an escaped space must denote a byte the host mode leaves unescaped. -/
def unescapeZone : List Char → Except String Unit
  | '%' :: a :: b :: rest =>
    match hexVal a, hexVal b with
    | some hi, some lo =>
      if ¬(a = '2' ∧ b = '5') ∧ hi * 16 + lo ≠ 32 ∧
          shouldEscapeHostByte (hi * 16 + lo) then
        Except.error "invalid URL escape"
      else unescapeZone rest
    | _, _ => Except.error "invalid URL escape"
  | '%' :: _ => Except.error "invalid URL escape"
  | c :: rest =>
    if c.toNat < 0x80 ∧ shouldEscapeHost c then
      Except.error "invalid character in host name"
    else unescapeZone rest
  | [] => Except.ok ()

/-- Index of the last occurrence of a character, if any. -/
def lastIndexOfAux (c : Char) : List Char → Nat → Option Nat → Option Nat
  | [], _, best => best
  | x :: xs, i, best =>
    lastIndexOfAux c xs (i + 1) (if x = c then some i else best)

def lastIndexOf (c : Char) (l : List Char) : Option Nat :=
  lastIndexOfAux c l 0 none

/-- Index of the first occurrence of the substring `%25`, if any. -/
def index25 : List Char → Option Nat
  | '%' :: '2' :: '5' :: _ => some 0
  | _ :: rest => (index25 rest).map (fun i => i + 1)
  | [] => none

/-- Go `parseHost`, error behavior only: an `[`-led IP literal needs a
closing `]`, a valid optional port, and host/zone unescaping; any other
host needs a valid optional port after its last colon and host
unescaping. -/
def parseHost (host : List Char) : Except String Unit :=
  match host with
  | '[' :: _ =>
    match lastIndexOf ']' host with
    | none => Except.error "missing ']' in host"
    | some i =>
      if ¬ validOptionalPort (host.drop (i + 1)) then
        Except.error "invalid port after host"
      else
        match index25 (host.take i) with
        | some z =>
          match unescapeHost ((host.take i).take z) with
          | .error e => .error e
          | .ok _ =>
            match unescapeZone ((host.take i).drop z) with
            | .error e => .error e
            | .ok _ => unescapeHost (host.drop i)
        | none => unescapeHost host
  | _ =>
    match lastIndexOf ':' host with
    | some i =>
      if ¬ validOptionalPort (host.drop i) then
        Except.error "invalid port after host"
      else unescapeHost host
    | none => unescapeHost host

/-- Go `validUserinfo`: alphanumerics and the userinfo punctuation set. -/
def validUserinfo (l : List Char) : Bool :=
  l.all (fun c =>
    if ('a' ≤ c ∧ c ≤ 'z') ∨ ('A' ≤ c ∧ c ≤ 'Z') ∨ ('0' ≤ c ∧ c ≤ '9') then
      true
    else
      let n := c.toNat
      n = 45 ∨ n = 46 ∨ n = 95 ∨ n = 58 ∨ n = 126 ∨ n = 33 ∨ n = 36 ∨
        n = 38 ∨ n = 39 ∨ n = 40 ∨ n = 41 ∨ n = 42 ∨ n = 43 ∨ n = 44 ∨
        n = 59 ∨ n = 61 ∨ n = 37 ∨ n = 64)

/-- Go `parseAuthority`, error behavior only: the part after the last `@`
is the host; the part before it must be valid userinfo, split at the
first colon into user and password with their escapes validated. -/
def parseAuthority (authority : List Char) : Except String Unit :=
  match lastIndexOf '@' authority with
  | none => parseHost authority
  | some i =>
    match parseHost (authority.drop (i + 1)) with
    | .error e => .error e
    | .ok _ =>
      let userinfo := authority.take i
      if ¬ validUserinfo userinfo then Except.error "net/url: invalid userinfo"
      else
        let br := breakAt ':' userinfo
        if ¬ validEscapes br.1 then Except.error "invalid URL escape"
        else
          match br.2 with
          | none => Except.ok ()
          | some pw =>
            if validEscapes pw then Except.ok ()
            else Except.error "invalid URL escape"

/-- Whether a character list starts with `//`. -/
def startsWithSlash2 : List Char → Bool
  | '/' :: '/' :: _ => true
  | _ => false

/-- Whether a character list starts with `///`. -/
def startsWithSlash3 : List Char → Bool
  | '/' :: '/' :: '/' :: _ => true
  | _ => false

/-- The part of a parsed `url.URL` that the library reads back: its raw
query. -/
structure GoURL where
  rawQuery : String
  deriving DecidableEq, Repr

/-- Go `parse(u, viaRequest := false)` on the pre-fragment part: control
bytes are rejected; a scheme is split off; a lone trailing `?` is the
force-query form (empty raw query), otherwise the raw query is everything
after the first `?`; a rootless rest with a scheme is an opaque URL
returned with no further checks, without a scheme it must not carry a
colon in its first segment; a `//`-led rest (not `///` when schemeless)
parses and validates an authority; finally the path's escapes are
validated.  Returns the raw query. -/
def parseURL (u : List Char) : Except String String :=
  if u.any (fun c => c.toNat < 0x20 ∨ c.toNat = 0x7F) then
    Except.error "net/url: invalid control character in URL"
  else
    match getScheme u with
    | .error e => .error e
    | .ok (scheme, rest) =>
      let qsplit : List Char × List Char :=
        if rest.getLast? = some '?' ∧ ¬ rest.dropLast.contains '?' then
          (rest.dropLast, [])
        else
          let br := breakAt '?' rest
          (br.1, br.2.getD [])
      let rest2 := qsplit.1
      let rawq := String.mk qsplit.2
      if rest2.head? ≠ some '/' then
        if scheme ≠ [] then Except.ok rawq
        else if (breakAt '/' rest2).1.contains ':' then
          Except.error "first path segment in URL cannot contain colon"
        else if validEscapes rest2 then Except.ok rawq
        else Except.error "invalid URL escape"
      else if (scheme ≠ [] ∨ startsWithSlash3 rest2 = false) ∧
          startsWithSlash2 rest2 = true then
        let br2 := breakAt '/' (rest2.drop 2)
        let rest3 : List Char :=
          match br2.2 with | none => [] | some t => '/' :: t
        match parseAuthority br2.1 with
        | .error e => .error e
        | .ok _ =>
          if validEscapes rest3 then Except.ok rawq
          else Except.error "invalid URL escape"
      else if validEscapes rest2 then Except.ok rawq
      else Except.error "invalid URL escape"

/-- Model of Go's `url.Parse`: the fragment is cut at the first `#`, the
rest goes through `parseURL`, and a non-empty fragment has its escapes
validated (`setFragment`). -/
def urlParse (s : String) : Except String GoURL :=
  let br := breakAt '#' s.toList
  match parseURL br.1 with
  | .error e => .error e
  | .ok rawq =>
    match br.2 with
    | none => Except.ok ⟨rawq⟩
    | some frag =>
      if frag = [] then Except.ok ⟨rawq⟩
      else if validEscapes frag then Except.ok ⟨rawq⟩
      else Except.error "invalid URL escape"

/-! ## Go `path.Clean` model -/

/-- Split a character list into its `/`-separated elements. -/
def splitOnSlash : List Char → List (List Char)
  | [] => [[]]
  | c :: rest =>
    if c = '/' then [] :: splitOnSlash rest
    else
      match splitOnSlash rest with
      | [] => [[c]]
      | seg :: segs => (c :: seg) :: segs

/-- The element-stack pass of Go's `path.Clean`: drop empty and `.`
elements, let `..` cancel a preceding element (or survive at the front of
a relative path, or vanish at the root of a rooted one).  The stack is
returned in reverse order. -/
def cleanElems (rooted : Bool) (elems : List (List Char)) : List (List Char) :=
  elems.foldl
    (fun stack e =>
      if e = [] ∨ e = ['.'] then stack
      else if e = ['.', '.'] then
        match stack with
        | [] => if rooted then [] else [['.', '.']]
        | top :: rest => if top = ['.', '.'] then ['.', '.'] :: top :: rest else rest
      else e :: stack)
    []

/-- Join path elements with `/` separators. -/
def joinSlash : List (List Char) → List Char
  | [] => []
  | [e] => e
  | e :: rest => e ++ '/' :: joinSlash rest

/-- Model of Go's `path.Clean`. -/
def pathClean (p : String) : String :=
  if p = "" then "."
  else
    let l := p.toList
    let rooted := match l with | c :: _ => c = '/' | [] => false
    let out := joinSlash (cleanElems rooted (splitOnSlash l)).reverse
    if rooted then String.mk ('/' :: out)
    else if out = [] then "." else String.mk out

/-! ## Credentials (`auth.go`)

`Keys` holds an AWS access key, secret key, and optional session token.
The Go struct's fields are unexported; the only writes in the repository
are the struct literals in the constructors. -/

/-- Keys for an Amazon Web Services account, used for signing http
requests (`auth.go`). -/
structure Keys where
  accessKeyID : String
  secretAccessKey : String
  sessionToken : String
  deriving DecidableEq, Repr

def Keys.AccessKeyID (k : Keys) : String := k.accessKeyID

def Keys.SecretAccessKey (k : Keys) : String := k.secretAccessKey

def Keys.SessionToken (k : Keys) : String := k.sessionToken

/-! ## Endpoint descriptors (`part_002`, `part_001`)

`S3` holds a custom domain (defaulted to `s3.amazonaws.com`);
`S3Accelerated` always uses the transfer-acceleration domain and carries a
fixed region.  Both embed a `*Keys`.  `part_001` is the current version of
the accelerated variant (`part_000` holds superseded copies of the same
declarations). -/

/-- The `S3` descriptor contains the domain of an S3-compatible service and the
authentication keys for that service (`part_002`). -/
structure S3 where
  domain : String
  keys : Keys
  deriving DecidableEq, Repr

def S3.Domain (s : S3) : String := s.domain

def S3.DomainForBucket (s : S3) (bucket : String) : String :=
  bucket ++ "." ++ s.Domain

/-- The constant `DefaultDomain` is the endpoint for the U.S. S3 service. -/
def DefaultDomain : String := "s3.amazonaws.com"

/-- The constructor `New` returns a new `S3`; the domain defaults to `DefaultDomain` when
empty (`part_002`). -/
def New (domain : String) (keys : Keys) : S3 :=
  if domain = "" then ⟨DefaultDomain, keys⟩ else ⟨domain, keys⟩

/-- The default region of the accelerated endpoint (`part_001`). -/
def defaultRegion : String := "us-west-2"

/-- The accelerated-endpoint descriptor (`part_001`). -/
structure S3Accelerated where
  region : String
  keys : Keys
  deriving DecidableEq, Repr

def NewAcceleratedS3 (k : Keys) : S3Accelerated := ⟨defaultRegion, k⟩

def NewAcceleratedS3InRegion (k : Keys) (region : String) : S3Accelerated :=
  ⟨region, k⟩

def S3Accelerated.Region (a : S3Accelerated) : String := a.region

def S3Accelerated.Domain (a : S3Accelerated) : String :=
  "s3-accelerate.amazonaws.com"

def S3Accelerated.DomainForBucket (a : S3Accelerated) (bucket : String) :
    String :=
  bucket ++ "." ++ a.Domain

/-! ## Region inference (`part_002`)

`(*S3).Region` consults the domain; unknown domains are matched against
the regular expression `s3[-.]([a-z0-9-]+).amazonaws.com([.a-z0-9]*)`, and
failing that the `AWS_REGION` environment variable is the fallback, with a
panic when it is unset.  The environment variable is passed explicitly
(`""` models an unset variable, as `os.Getenv` returns `""` then), and the
panic is modelled as `Except.error`. -/

/-- Character class `[a-z0-9-]` of the region matcher's first group. -/
def isG1Char (c : Char) : Bool :=
  ('a' ≤ c ∧ c ≤ 'z') ∨ ('0' ≤ c ∧ c ≤ '9') ∨ c = '-'

/-- Any-character class: `.` in the pattern accepts any character other than a newline (RE2). -/
def isAnyChar (c : Char) : Bool := c ≠ '\n'

/-- Strip an expected literal character sequence from the front of a
list. -/
def stripLit : List Char → List Char → Option (List Char)
  | [], l => some l
  | _ :: _, [] => none
  | p :: ps, c :: cs => if c = p then stripLit ps cs else none

/-- Match the pattern tail `.amazonaws.com([.a-z0-9]*)` that follows the
first capture group; the trailing group always matches, so only the
literal part constrains the input. -/
def afterGroup1 (l : List Char) : Bool :=
  match l with
  | [] => false
  | c :: rest =>
    if isAnyChar c then
      match stripLit "amazonaws".toList rest with
      | some (d :: rest2) =>
        if isAnyChar d then (stripLit "com".toList rest2).isSome else false
      | _ => false
    else false

/-- Backtracking search for the greedy group `([a-z0-9-]+)`: try the
longest candidate length first, then shorter ones, never below one
character. -/
def group1Try (l : List Char) : Nat → Option (List Char)
  | 0 => none
  | k + 1 =>
    if afterGroup1 (l.drop (k + 1)) then some (l.take (k + 1))
    else group1Try l k

/-- Attempt a match of the whole pattern at the head of `l`, returning the
first capture group. -/
def matchAt (l : List Char) : Option (List Char) :=
  match l with
  | 's' :: '3' :: c :: rest =>
    if c = '-' ∨ c = '.' then
      group1Try rest (rest.takeWhile isG1Char).length
    else none
  | _ => none

/-- Leftmost-first search, as `regexp.FindStringSubmatch` performs. -/
def findFrom : List Char → Option String
  | [] => none
  | c :: cs =>
    match matchAt (c :: cs) with
    | some g => some (String.mk g)
    | none => findFrom cs

/-- The first capture group of
`regexp.MustCompile("s3[-.]([a-z0-9-]+).amazonaws.com([.a-z0-9]*)")`
applied with `FindStringSubmatch`, `none` when the pattern does not match
(`part_002`, `regionMatcher`). -/
def regionMatcherFind (s : String) : Option String :=
  findFrom s.toList

/-- Model of `(*S3).Region` (`part_002`): the service region inferred from the S3
domain; `env` is the value of `AWS_REGION`, and `Except.error` models the
`panic("can't find endpoint region")`. -/
def S3.Region (s : S3) (env : String) : Except String String :=
  if s.Domain = "s3.amazonaws.com" then Except.ok "us-east-1"
  else if s.Domain = "s3-external-1.amazonaws.com" then Except.ok "us-east-1"
  else if s.Domain = "s3-accelerate.amazonaws.com" then
    if env = "" then Except.error "can't find endpoint region"
    else Except.ok env
  else
    match regionMatcherFind s.Domain with
    | some r => Except.ok r
    | none =>
      if env = "" then Except.error "can't find endpoint region"
      else Except.ok env

/-! ## Configuration (`bucket.go`, `part_002`) -/

/-- Config includes configuration parameters for s3gof3r (`bucket.go`).
The Go struct's `Client *http.Client` field is an opaque transport handle
not used by any embedded computation and is omitted here. -/
structure Config where
  Concurrency : Int
  PartSize : Int
  NTry : Int
  Md5Check : Bool
  Scheme : String
  PathStyle : Bool
  deriving DecidableEq, Repr

/-- Modelled from the spec: the size constant `mb` is declared in a source
file of this repository that is not under `src/`; the spec states the
default part size is 20 MB, so `mb` is 2^20 bytes. -/
def mb : Int := 1048576

/-- The `DefaultConfig` value is used when a `*Config` is nil (`part_002`).  The Go
literal leaves `PathStyle` at its zero value `false`. -/
def DefaultConfig : Config :=
  ⟨10, 20 * mb, 10, true, "https", false⟩

/-! ## Buckets (`bucket.go`) -/

/-- The endpoint-descriptor capability `S3ConfigSource` (`bucket.go`),
satisfied in the repository by `*S3` and `*S3Accelerated`; modelled as the
tagged union of those two variants. -/
inductive S3Source where
  | std (s : S3)
  | accelerated (a : S3Accelerated)
  deriving DecidableEq, Repr

def S3Source.Domain : S3Source → String
  | .std s => s.Domain
  | .accelerated a => a.Domain

def S3Source.DomainForBucket (src : S3Source) (bucket : String) : String :=
  match src with
  | .std s => s.DomainForBucket bucket
  | .accelerated a => a.DomainForBucket bucket

def S3Source.Region (src : S3Source) (env : String) : Except String String :=
  match src with
  | .std s => s.Region env
  | .accelerated a => Except.ok a.Region

def S3Source.keysOf : S3Source → Keys
  | .std s => s.keys
  | .accelerated a => a.keys

/-- A Bucket for an S3 service (`bucket.go`). -/
structure Bucket where
  S3 : S3Source
  Name : String
  Config : Config
  deriving DecidableEq, Repr

/-- Model of `NewBucket` (`bucket.go`): builds the bucket from its arguments; the
Go function's error result is always nil. -/
def NewBucket (s3 : S3Source) (name : String) (config : Config) : Bucket :=
  ⟨s3, name, config⟩

/-- Model of `(*S3).Bucket` (`part_002`): a bucket with `DefaultConfig`. -/
def S3.Bucket (s : S3) (name : String) : Bucket :=
  NewBucket (.std s) name DefaultConfig

/-- Model of `(*S3Accelerated).BucketWithDefaultConfig` (`part_001`).  The Go
literal leaves `PathStyle` at `false` and sets an http client (omitted, as
in `Config`). -/
def S3Accelerated.BucketWithDefaultConfig (a : S3Accelerated)
    (name : String) : Bucket :=
  NewBucket (.accelerated a) name ⟨10, 20 * mb, 10, true, "https", false⟩

/-! ## URL construction (`bucket.go`, `part_002`) -/

/-- The query parameter naming an object version (`part_002`). -/
def versionParam : String := "versionId"

/-- The fields of the `url.URL` values the library constructs. -/
structure URL where
  Scheme : String
  Host : String
  Path : String
  RawQuery : String
  deriving DecidableEq, Repr

/-- Go `strings.Split(s, "?")[0]`: the part of `s` before its first `?` (all
of `s` when there is none). -/
def beforeQM (s : String) : String :=
  String.mk (breakAt '?' s.toList).1

/-- Model of `(*Bucket).url` (`bucket.go`): parse the `versionId` parameter out of
the path if present, then build a path-style URL when the bucket name
contains a period or `PathStyle` is set, and a virtual-hosted URL
otherwise.  `url.Values.Encode` on the singleton `versionId` map is
inlined as the escaped pair (it is `""` for the empty map). -/
def Bucket.url (b : Bucket) (bPath : String) : Except String URL :=
  match urlParse bPath with
  | .error e => .error e
  | .ok purl =>
    let v := queryGet purl.rawQuery versionParam
    let pq : String × String :=
      if v = [] then (bPath, "")
      else
        (beforeQM bPath,
          queryEscape versionParam ++ "=" ++ queryEscapeBytes v)
    if b.Name.toList.contains '.' ∨ b.Config.PathStyle then
      Except.ok ⟨b.Config.Scheme, b.S3.Domain,
        pathClean ("/" ++ b.Name ++ "/" ++ pq.1), pq.2⟩
    else
      Except.ok ⟨b.Config.Scheme, pathClean (b.S3.DomainForBucket b.Name),
        pathClean ("/" ++ pq.1), pq.2⟩

/-! ## Stream creation (`bucket.go`; getter/putter internals are not under
`src/`) -/

/-- Modelled from the spec: `newGetter` lives in a source file of this
repository that is not under `src/`.  Per the spec's error taxonomy, an
invalid Transfer Configuration (non-positive part size, zero concurrency)
is rejected at stream-creation time and never during a transfer; the
network transfer itself is not modelled, so a successful creation is
represented by the URL the getter fetches. -/
def newGetter (u : URL) (b : Bucket) : Except String URL :=
  if b.Config.PartSize ≤ 0 ∨ b.Config.Concurrency = 0 then
    Except.error "invalid transfer configuration"
  else Except.ok u

/-- An HTTP header map, modelled as an association list with map
semantics; the keys the library sets are already in canonical form. -/
abbrev Header := List (String × String)

/-- Go `http.Header.Set`: bind `key` to exactly `value`, dropping any
previous binding (the map holds a single entry per key). -/
def headerSet (h : Header) (key value : String) : Header :=
  match h with
  | [] => [(key, value)]
  | p :: t =>
    if p.1 = key then headerSet t key value else p :: headerSet t key value

/-- Go `http.Header.Get`: the value bound to `key`, `""` when absent. -/
def headerGet (h : Header) (key : String) : String :=
  match h.find? (fun p => p.1 == key) with
  | some p => p.2
  | none => ""

/-- Modelled from the spec: `newPutter` lives in a source file of this
repository that is not under `src/`.  As for `newGetter`, an invalid
Transfer Configuration is rejected at stream-creation time; a successful
creation is represented by the URL the putter uploads to together with
the caller-supplied headers it attaches. -/
def newPutter (u : URL) (h : Header) (b : Bucket) :
    Except String (URL × Header) :=
  if b.Config.PartSize ≤ 0 ∨ b.Config.Concurrency = 0 then
    Except.error "invalid transfer configuration"
  else Except.ok (u, h)

/-- Model of `(*Bucket).GetReader` (`bucket.go`): rejects the empty path, builds
the URL, and creates the getter. -/
def Bucket.GetReader (b : Bucket) (path : String) : Except String URL :=
  if path = "" then Except.error "empty path requested"
  else
    match b.url path with
    | .error e => .error e
    | .ok u => newGetter u b

/-- Model of `(*Bucket).PutWriter` (`bucket.go`): builds the URL and creates the
putter; there is no empty-path check. -/
def Bucket.PutWriter (b : Bucket) (path : String) (h : Header) :
    Except String (URL × Header) :=
  match b.url path with
  | .error e => .error e
  | .ok u => newPutter u h b

/-! ## Deletion (`bucket.go`)

The two delete operations are embedded by their deletion traces: the
object keys they submit DELETE requests for, in order.  The HTTP
responses themselves are not modelled. -/

/-- Model of `(*Bucket).Delete` (`bucket.go`): deletes the key at `path`, then,
when `Md5Check` is set, the checksum sidecar at `/.md5/<path>.md5`. -/
def Bucket.Delete (b : Bucket) (path : String) : List String :=
  path :: (if b.Config.Md5Check then ["/.md5/" ++ path ++ ".md5"] else [])

/-- Model of `(*Bucket).DeleteMultiple` (`bucket.go`): deletes the given keys in a
single request and, when `Md5Check` is set, also the sidecar keys it
derives as `/.md5/<key>.md` (note the truncated suffix in the source).
The `quiet` flag only affects the verbosity of the response and is
omitted. -/
def Bucket.DeleteMultiple (b : Bucket) (keys : List String) : List String :=
  if b.Config.Md5Check then
    keys ++ keys.map (fun key => "/.md5/" ++ key ++ ".md")
  else keys

/-! ## Signing (`bucket.go`; the signer's own source is not under
`src/`) -/

/-- The fields of `http.Request` that the bucket layer touches or that
signing must leave intact; `Body` is an opaque stand-in for the request
body stream. -/
structure Request where
  Method : String
  URL : URL
  Header : Option Header
  Body : String
  deriving DecidableEq, Repr

/-- Modelled from the spec: the signer's `sign` method lives in a source
file of this repository that is not under `src/`.  Per the spec it
computes a deterministic signature from the credentials, the resolved
region, the timestamp, and the request's method, path, query and headers,
and attaches it together with a timestamp header — mutating only the
request's header set. -/
def signerSign (keys : Keys) (region now : String) (req : Request)
    (h : Header) : Header :=
  headerSet (headerSet h "Date" now) "Authorization"
    ("AWS4-HMAC-SHA256 Credential=" ++ keys.AccessKeyID ++ "/" ++ region ++
      " SignedRequest=" ++ req.Method ++ " " ++ req.URL.Path ++ "?" ++
      req.URL.RawQuery ++ "@" ++ now)

/-- Model of `(*Bucket).Sign` (`bucket.go`): ensures a header map exists, sets the
`User-Agent` header, and runs the signer.  `env` is `AWS_REGION` (the
signer resolves the region through the endpoint descriptor, and the panic
raised when no region can be determined is `Except.error`); `now` stands
for `time.Now()`.  Go mutates the request in place, so the embedding
returns the updated request together with the bucket as left by the
call. -/
def Bucket.Sign (b : Bucket) (req : Request) (env now : String) :
    Except String (Request × Bucket) :=
  let h0 := match req.Header with | none => [] | some h => h
  let h1 := headerSet h0 "User-Agent" "S3Gof3r"
  match b.S3.Region env with
  | .error e => .error e
  | .ok region =>
    .ok ({ req with Header := some (signerSign b.S3.keysOf region now req h1) }, b)

/-! ## Concrete values used by witnesses -/

/-- A bucket whose configuration has zero part size and concurrency. -/
def badBucket : Bucket :=
  NewBucket (.std (New "" ⟨"AK", "SK", ""⟩)) "bkt"
    ⟨0, 0, 10, true, "https", false⟩

/-- An accelerated-endpoint bucket with the default configuration. -/
def accBucket : Bucket :=
  (NewAcceleratedS3 ⟨"AK", "SK", ""⟩).BucketWithDefaultConfig "bkt"

/-- A request without headers. -/
def demoReq : Request := ⟨"GET", ⟨"https", "h", "/p", "q"⟩, none, "B"⟩

/-- A request that already carries a header. -/
def demoReq2 : Request :=
  ⟨"PUT", ⟨"https", "h2", "/x", "versionId=1"⟩, some [("X-Test", "1")], "BB"⟩

example : pathClean "/a//b/" = "/a/b" := by decide
example : pathClean "a/../../b" = "../b" := by decide
example : pathClean "/.." = "/" := by decide
example : pathClean "" = "." := by decide
example : pathClean "/my.bucket/a//b" = "/my.bucket/a/b" := by decide
example : queryGet "versionId=abc&foo=bar" "versionId" = stringBytes "abc" := by decide
example : queryGet "foo=bar" "versionId" = [] := by decide
example : queryGet "versionId=%FF&versionId=abc" "versionId" = [0xFF] := by decide
example : queryEscapeBytes [0xFF] = "%FF" := by decide
example : queryEscape "a b/c" = "a+b%2Fc" := by decide
example : urlParse "key?versionId=v#frag" = Except.ok ⟨"versionId=v"⟩ := by decide
example : urlParse "key#frag?x=1" = Except.ok ⟨""⟩ := by decide
example : urlParse "k?" = Except.ok ⟨""⟩ := by decide
example : urlParse "a#%zz" = Except.error "invalid URL escape" := by decide
example : urlParse "%zz" = Except.error "invalid URL escape" := by decide
example : urlParse "a:%zz?q" = Except.ok ⟨"q"⟩ := by decide
example : urlParse "1:b" =
    Except.error "first path segment in URL cannot contain colon" := by decide
example : urlParse ":b" = Except.error "missing protocol scheme" := by decide
example : urlParse "//host:bad/x?q=1" =
    Except.error "invalid port after host" := by decide
example : urlParse "//host/p?q=1" = Except.ok ⟨"q=1"⟩ := by decide
example :
    ((New "" ⟨"AK", "SK", ""⟩).Bucket "bkt").url "a?versionId=v#%zz" =
      Except.error "invalid URL escape" := by decide
example :
    ((New "" ⟨"AK", "SK", ""⟩).Bucket "bkt").url "a#%zz" =
      Except.error "invalid URL escape" := by decide

example : regionMatcherFind "s3-eu-west-1.amazonaws.com" = some "eu-west-1" := by decide
example : regionMatcherFind "s3.eu-central-1.amazonaws.com" = some "eu-central-1" := by decide
example : regionMatcherFind "storage.example.com" = none := by decide
example : regionMatcherFind "s3.dualstack.eu-west-1.amazonaws.com" = none := by decide
example : regionMatcherFind "s3-external-1.amazonaws.com" = some "external-1" := by decide
example :
    ((New "" ⟨"AK", "SK", ""⟩).Bucket "bkt").url "key?versionId=abc&foo=bar" =
      Except.ok ⟨"https", "bkt.s3.amazonaws.com", "/key", "versionId=abc"⟩ := by decide
example :
    ((New "" ⟨"AK", "SK", ""⟩).Bucket "my.bucket").url "a//b" =
      Except.ok ⟨"https", "s3.amazonaws.com", "/my.bucket/a/b", ""⟩ := by decide
example :
    ((New "" ⟨"AK", "SK", ""⟩).Bucket "bkt").url "key?foo=bar" =
      Except.ok ⟨"https", "bkt.s3.amazonaws.com", "/key?foo=bar", ""⟩ := by decide

/-! ## Claim theorems -/

/-- C1: For an S3 endpoint whose domain is none of the recognized
us-east-1 domains, not the accelerate domain, and not matched by the
s3-region regular expression, `(*S3).Region` falls back to the
`AWS_REGION` environment override; when no override is set it signals an
error (the Go panic) instead of producing a region for signing. -/
theorem c1_region_fallback (s : S3) (env : String)
    (h1 : s.Domain ≠ "s3.amazonaws.com")
    (h2 : s.Domain ≠ "s3-external-1.amazonaws.com")
    (h3 : s.Domain ≠ "s3-accelerate.amazonaws.com")
    (h4 : regionMatcherFind s.Domain = none) :
    s.Region env =
      (if env = "" then Except.error "can't find endpoint region"
       else Except.ok env) := by
  unfold S3.Region
  rw [if_neg h1, if_neg h2, if_neg h3, h4]

/-- C1 witness: a custom endpoint domain matching no known pattern, with
and without the environment override. -/
theorem c1_region_fallback_witness :
    (S3.mk "storage.example.com" ⟨"AK", "SK", ""⟩).Region "" =
        Except.error "can't find endpoint region" ∧
      (S3.mk "storage.example.com" ⟨"AK", "SK", ""⟩).Region "eu-west-3" =
        Except.ok "eu-west-3" := by
  constructor
  · have h := c1_region_fallback (S3.mk "storage.example.com" ⟨"AK", "SK", ""⟩)
      "" (by decide) (by decide) (by decide) (by decide)
    simpa using h
  · have h := c1_region_fallback (S3.mk "storage.example.com" ⟨"AK", "SK", ""⟩)
      "eu-west-3" (by decide) (by decide) (by decide) (by decide)
    simpa using h

/-- C2: With `Md5Check` enabled, the single-delete path removes the
sidecar at `/.md5/<key>.md5` while the batched-delete path derives the
sidecar key `/.md5/<key>.md`; the two sidecar keys differ for every
key. -/
theorem c2_sidecar_inconsistent (b : Bucket) (k : String)
    (hmd5 : b.Config.Md5Check = true) :
    b.Delete k = [k, "/.md5/" ++ k ++ ".md5"] ∧
      b.DeleteMultiple [k] = [k, "/.md5/" ++ k ++ ".md"] ∧
      "/.md5/" ++ k ++ ".md5" ≠ "/.md5/" ++ k ++ ".md" := by
  refine ⟨?_, ?_, ?_⟩
  · unfold Bucket.Delete
    rw [hmd5]
    rfl
  · unfold Bucket.DeleteMultiple
    rw [hmd5]
    rfl
  · intro hEq
    have hlen := congrArg (fun s : String => s.data.length) hEq
    simp [String.data_append, List.length_append] at hlen

/-- C2 witness: a default-config bucket (whose `Md5Check` is on) and the
key `obj`. -/
theorem c2_sidecar_inconsistent_witness :
    ((New "" ⟨"AK", "SK", ""⟩).Bucket "bkt").Delete "obj" =
        ["obj", "/.md5/" ++ "obj" ++ ".md5"] ∧
      ((New "" ⟨"AK", "SK", ""⟩).Bucket "bkt").DeleteMultiple ["obj"] =
        ["obj", "/.md5/" ++ "obj" ++ ".md"] ∧
      "/.md5/" ++ "obj" ++ ".md5" ≠ "/.md5/" ++ "obj" ++ ".md" :=
  c2_sidecar_inconsistent ((New "" ⟨"AK", "SK", ""⟩).Bucket "bkt") "obj" rfl

/-- C4: With `Md5Check` enabled, `Delete` removes exactly the object key
followed by its checksum sidecar, whose key is the fixed prefix `/.md5/`,
the original key, and the fixed suffix `.md5` — the convention the
`Config` documentation states. -/
theorem c4_sidecar_key (b : Bucket) (k : String)
    (hmd5 : b.Config.Md5Check = true) :
    b.Delete k = [k, "/.md5/" ++ k ++ ".md5"] := by
  unfold Bucket.Delete
  rw [hmd5]
  rfl

/-- C4 witness: an accelerated-endpoint default bucket and a nested
key. -/
theorem c4_sidecar_key_witness :
    ((NewAcceleratedS3 ⟨"AK", "SK", ""⟩).BucketWithDefaultConfig
        "bkt").Delete "a/b" =
      ["a/b", "/.md5/" ++ "a/b" ++ ".md5"] :=
  c4_sidecar_key
    ((NewAcceleratedS3 ⟨"AK", "SK", ""⟩).BucketWithDefaultConfig "bkt")
    "a/b" rfl

/-- C5: Both default Transfer Configurations the library constructs
(`DefaultConfig` and the one built by `BucketWithDefaultConfig`) set
`Concurrency = 10`, `PartSize = 20 * mb` (20971520 bytes) and
`NTry = 10`, satisfying the required constraints concurrency `≥ 1`, part
size `> 0` and max attempts `≥ 1`. -/
theorem c5_default_config_valid :
    DefaultConfig.Concurrency = 10 ∧ DefaultConfig.PartSize = 20 * mb ∧
      DefaultConfig.PartSize = 20971520 ∧ DefaultConfig.NTry = 10 ∧
      1 ≤ DefaultConfig.Concurrency ∧ 0 < DefaultConfig.PartSize ∧
      1 ≤ DefaultConfig.NTry ∧
      ∀ (a : S3Accelerated) (name : String),
        (a.BucketWithDefaultConfig name).Config = DefaultConfig := by
  refine ⟨rfl, rfl, by decide, rfl, by decide, by decide, by decide, ?_⟩
  intro a name
  rfl

/-- C3: With an invalid Transfer Configuration — non-positive part size
or zero concurrency — both `GetReader` and `PutWriter` return an error at
stream-creation time, for every path and header set, so no transfer ever
starts under such a configuration. -/
theorem c3_invalid_config_rejected (b : Bucket) (p : String) (h : Header)
    (hinv : b.Config.PartSize ≤ 0 ∨ b.Config.Concurrency = 0) :
    (∃ e, b.GetReader p = Except.error e) ∧
      ∃ e, b.PutWriter p h = Except.error e := by
  constructor
  · by_cases hp : p = ""
    · exact ⟨"empty path requested", by simp [Bucket.GetReader, hp]⟩
    · unfold Bucket.GetReader
      rw [if_neg hp]
      cases hurl : b.url p with
      | error e => exact ⟨e, rfl⟩
      | ok u =>
        refine ⟨"invalid transfer configuration", ?_⟩
        simp only [newGetter, if_pos hinv]
  · unfold Bucket.PutWriter
    cases hurl : b.url p with
    | error e => exact ⟨e, rfl⟩
    | ok u =>
      refine ⟨"invalid transfer configuration", ?_⟩
      simp only [newPutter, if_pos hinv]

/-- C3 witness: the invalid configuration is rejected on a concrete
bucket, path and header set. -/
theorem c3_invalid_config_rejected_witness :
    (∃ e, badBucket.GetReader "k" = Except.error e) ∧
      ∃ e, badBucket.PutWriter "k" [] = Except.error e :=
  c3_invalid_config_rejected badBucket "k" [] (Or.inl (by decide))

/-- C8: `GetReader` rejects the empty path with an error before any URL
is constructed, for every bucket; `PutWriter` has no such check — on a
concrete default bucket it accepts the empty path and proceeds to create
the putter (targeting the bucket root URL). -/
theorem c8_empty_path_check :
    (∀ b : Bucket, b.GetReader "" = Except.error "empty path requested") ∧
      ((New "" ⟨"AK", "SK", ""⟩).Bucket "bkt").PutWriter "" [] =
        Except.ok (⟨"https", "bkt.s3.amazonaws.com", "/", ""⟩, []) := by
  constructor
  · intro b
    rfl
  · decide

/-- Setting a key and reading it back yields the new value. -/
theorem headerGet_headerSet_self (h : Header) (k v : String) :
    headerGet (headerSet h k v) k = v := by
  induction h with
  | nil => simp [headerSet, headerGet]
  | cons p t ih =>
    by_cases hp : p.1 = k
    · simpa [headerSet, hp] using ih
    · simpa [headerSet, headerGet, hp] using ih

/-- Setting a key leaves every other key alone. -/
theorem headerGet_headerSet_other (h : Header) (k v q : String)
    (hq : q ≠ k) :
    headerGet (headerSet h k v) q = headerGet h q := by
  have hkq : k ≠ q := Ne.symm hq
  induction h with
  | nil => simp [headerSet, headerGet, hkq]
  | cons p t ih =>
    by_cases hp : p.1 = k
    · have hpq : p.1 ≠ q := hp ▸ hkq
      rw [show headerSet (p :: t) k v = headerSet t k v by
        simp [headerSet, hp]]
      rw [ih]
      simp [headerGet, hpq]
    · by_cases hpq : p.1 = q
      · simp [headerSet, headerGet, hp, hpq, hq]
      · simpa [headerSet, headerGet, hp, hpq] using ih

/-- C6: Credentials are immutable and faithfully reported: the three
accessors return exactly the construction arguments; `NewBucket` shares
the endpoint descriptor (and thus the `Keys` inside it) unchanged; and
`Sign` — the one bucket operation that consumes the credentials — leaves
the bucket, and hence the shared `Keys` value, exactly as it was. -/
theorem c6_keys_immutable :
    (∀ a s t : String,
        (Keys.mk a s t).AccessKeyID = a ∧
          (Keys.mk a s t).SecretAccessKey = s ∧
          (Keys.mk a s t).SessionToken = t) ∧
      (∀ (s3 : S3Source) (n : String) (c : Config),
          (NewBucket s3 n c).S3 = s3 ∧
            (NewBucket s3 n c).S3.keysOf = s3.keysOf) ∧
      ∀ (b : Bucket) (req : Request) (env now : String)
        (r : Request × Bucket),
        b.Sign req env now = Except.ok r →
          r.2 = b ∧ r.2.S3.keysOf = b.S3.keysOf := by
  refine ⟨fun a s t => ⟨rfl, rfl, rfl⟩, fun s3 n c => ⟨rfl, rfl⟩, ?_⟩
  intro b req env now r h
  unfold Bucket.Sign at h
  cases hr : b.S3.Region env with
  | error e =>
    rw [hr] at h
    cases h
  | ok region =>
    rw [hr] at h
    cases h
    exact ⟨rfl, rfl⟩

/-- C6 witness: concrete accessor reads, a concrete shared descriptor,
and a concrete successful signing call that returns the bucket — and so
the shared `Keys` — unchanged. -/
theorem c6_keys_immutable_witness :
    (Keys.mk "AK" "SK" "ST").AccessKeyID = "AK" ∧
      (NewBucket (.std (New "" ⟨"AK", "SK", "ST"⟩)) "bkt" DefaultConfig).S3 =
        .std (New "" ⟨"AK", "SK", "ST"⟩) ∧
      ∃ r : Request × Bucket,
        accBucket.Sign demoReq "" "t" = Except.ok r ∧ r.2 = accBucket := by
  have hr : accBucket.Sign demoReq "" "t" =
      Except.ok
        ({ demoReq with
            Header := some (signerSign accBucket.S3.keysOf "us-west-2" "t"
              demoReq (headerSet [] "User-Agent" "S3Gof3r")) },
          accBucket) := rfl
  exact ⟨(c6_keys_immutable.1 "AK" "SK" "ST").1,
    (c6_keys_immutable.2.1 (.std (New "" ⟨"AK", "SK", "ST"⟩)) "bkt"
      DefaultConfig).1,
    _, hr, (c6_keys_immutable.2.2 accBucket demoReq "" "t" _ hr).1⟩

/-- The signer never touches the `User-Agent` header. -/
theorem headerGet_signerSign_user_agent (keys : Keys) (region now : String)
    (req : Request) (h : Header) :
    headerGet (signerSign keys region now req h) "User-Agent" =
      headerGet h "User-Agent" := by
  unfold signerSign
  rw [headerGet_headerSet_other _ _ _ _
    (show "User-Agent" ≠ "Authorization" by decide)]
  rw [headerGet_headerSet_other _ _ _ _
    (show "User-Agent" ≠ "Date" by decide)]

/-- C7: A successful `Sign` changes only the request's header set: the
method, URL and body are unchanged, a nil header map has been replaced by
a non-nil one, and the `User-Agent` header is set to `S3Gof3r`. -/
theorem c7_sign_mutates_only_headers (b : Bucket) (req : Request)
    (env now : String) (r : Request × Bucket)
    (h : b.Sign req env now = Except.ok r) :
    r.1.Method = req.Method ∧ r.1.URL = req.URL ∧ r.1.Body = req.Body ∧
      r.1.Header ≠ none ∧
      headerGet (r.1.Header.getD []) "User-Agent" = "S3Gof3r" := by
  unfold Bucket.Sign at h
  cases hr : b.S3.Region env with
  | error e =>
    rw [hr] at h
    cases h
  | ok region =>
    rw [hr] at h
    cases h
    refine ⟨rfl, rfl, rfl, by simp, ?_⟩
    simp only [Option.getD_some]
    rw [headerGet_signerSign_user_agent]
    exact headerGet_headerSet_self _ _ _

/-- C7 witness: a concrete signing call on a request that already carries
a header. -/
theorem c7_sign_mutates_only_headers_witness :
    ∃ r : Request × Bucket,
      accBucket.Sign demoReq2 "" "now" = Except.ok r ∧
        r.1.Method = demoReq2.Method ∧ r.1.URL = demoReq2.URL ∧
        r.1.Body = demoReq2.Body ∧ r.1.Header ≠ none ∧
        headerGet (r.1.Header.getD []) "User-Agent" = "S3Gof3r" := by
  have hr : accBucket.Sign demoReq2 "" "now" =
      Except.ok
        ({ demoReq2 with
            Header := some (signerSign accBucket.S3.keysOf "us-west-2" "now"
              demoReq2
              (headerSet [("X-Test", "1")] "User-Agent" "S3Gof3r")) },
          accBucket) := rfl
  obtain ⟨h1, h2, h3, h4, h5⟩ :=
    c7_sign_mutates_only_headers accBucket demoReq2 "" "now" _ hr
  exact ⟨_, hr, h1, h2, h3, h4, h5⟩

/-- C9 counterexample: for the bucket name `my.bucket` (containing a
period) and the key `a//b`, the generated URL's host is indeed the bare
endpoint domain, but its path is the cleaned `/my.bucket/a/b`, not the
claimed `/<bucket>/<key>` concatenation `/my.bucket/a//b`. -/
theorem c9_addressing_counterexample :
    ((New "" ⟨"AK", "SK", ""⟩).Bucket "my.bucket").url "a//b" =
        Except.ok ⟨"https", "s3.amazonaws.com", "/my.bucket/a/b", ""⟩ ∧
      "/my.bucket/a/b" ≠ "/my.bucket/" ++ "a//b" := by
  constructor
  · decide
  · decide

/-- C9 (amended): for every key that `url.Parse` accepts and that carries
no `versionId` query parameter, URL construction uses path-style
addressing whenever the bucket name contains a period, even with
`PathStyle` off — host is the bare endpoint domain, path is `path.Clean`
of `/<bucket>/<key>` — and otherwise, host is `path.Clean` of the
bucket-qualified domain and path is `path.Clean` of `/<key>` (these equal
`/<bucket>/<key>` resp. `/<key>` whenever that string is already a clean
path). -/
theorem c9_addressing (b : Bucket) (key : String) (rq : GoURL)
    (hp : urlParse key = Except.ok rq)
    (hv : queryGet rq.rawQuery versionParam = []) :
    b.url key =
      Except.ok
        (if b.Name.toList.contains '.' ∨ b.Config.PathStyle then
          ⟨b.Config.Scheme, b.S3.Domain,
            pathClean ("/" ++ b.Name ++ "/" ++ key), ""⟩
        else
          ⟨b.Config.Scheme, pathClean (b.S3.DomainForBucket b.Name),
            pathClean ("/" ++ key), ""⟩) := by
  unfold Bucket.url
  rw [hp]
  dsimp only
  rw [hv]
  by_cases hc : b.Name.toList.contains '.' ∨ b.Config.PathStyle
  · rw [if_pos hc, if_pos hc]
    rfl
  · rw [if_neg hc, if_neg hc]
    rfl

/-- C9 witness: a dotted bucket name forces path-style addressing on an
already-clean key that parses successfully. -/
theorem c9_addressing_witness :
    ((New "" ⟨"AK", "SK", ""⟩).Bucket "my.bucket").url "k" =
      Except.ok ⟨"https", "s3.amazonaws.com", "/my.bucket/k", ""⟩ := by
  have h := c9_addressing ((New "" ⟨"AK", "SK", ""⟩).Bucket "my.bucket") "k"
    ⟨""⟩ (by decide) (by decide)
  rw [h]
  decide

/-- C10: For every path that `url.Parse` accepts and whose query carries
a non-empty `versionId` value (a byte string), the generated URL's query
holds exactly that one parameter, re-encoded, and its path portion is
built from the part of the input before the first `?` — every other
query parameter is dropped. -/
theorem c10_version_query (b : Bucket) (bPath : String) (rq : GoURL)
    (v : List UInt8)
    (hp : urlParse bPath = Except.ok rq)
    (hv : queryGet rq.rawQuery versionParam = v)
    (hne : v ≠ []) :
    b.url bPath =
      Except.ok
        (if b.Name.toList.contains '.' ∨ b.Config.PathStyle then
          ⟨b.Config.Scheme, b.S3.Domain,
            pathClean ("/" ++ b.Name ++ "/" ++ beforeQM bPath),
            queryEscape versionParam ++ "=" ++ queryEscapeBytes v⟩
        else
          ⟨b.Config.Scheme, pathClean (b.S3.DomainForBucket b.Name),
            pathClean ("/" ++ beforeQM bPath),
            queryEscape versionParam ++ "=" ++ queryEscapeBytes v⟩) := by
  unfold Bucket.url
  rw [hp]
  dsimp only
  rw [hv, if_neg hne]
  by_cases hc : b.Name.toList.contains '.' ∨ b.Config.PathStyle
  · rw [if_pos hc, if_pos hc]
  · rw [if_neg hc, if_neg hc]

/-- C10 witness: a `versionId` parameter is preserved while a second
parameter `foo=bar` is dropped and the path is stripped of the query. -/
theorem c10_version_query_witness :
    ((New "" ⟨"AK", "SK", ""⟩).Bucket "bkt").url
        "key?versionId=abc&foo=bar" =
      Except.ok ⟨"https", "bkt.s3.amazonaws.com", "/key", "versionId=abc"⟩ := by
  have h := c10_version_query ((New "" ⟨"AK", "SK", ""⟩).Bucket "bkt")
    "key?versionId=abc&foo=bar" ⟨"versionId=abc&foo=bar"⟩
    (stringBytes "abc") (by decide) (by decide) (by decide)
  rw [h]
  decide
